import Mathlib

/-!
Shallow embedding of trurl (src/trurl.c): the URL Mutation & Rendering
Pipeline.  The external URL Engine (libcurl's CURLU API) is out of scope of
the program itself; it is modelled here as a small executable state machine
over an explicit record of URL components, following the Engine contract of
spec §1/§6 (get fails with a component-absent code when the component is
unset) and libcurl's documented behaviour where the program relies on it
(e.g. a PATH get always succeeds and yields "/" for an unset path).
Engine-internal percent-encoding/decoding and scheme-specific validation are
out of scope per spec §1 and are not modelled; the flags controlling them are
threaded through where the source passes them.
-/

deriving instance DecidableEq for Except

namespace Trurl

/-- CURLUPart: the Engine component identifiers used by trurl.c. -/
inductive CURLUPart where
  | URL | SCHEME | USER | PASSWORD | OPTIONS | HOST | PORT | PATH
  | QUERY | FRAGMENT | ZONEID
deriving DecidableEq, Repr

/-- Engine error codes (CURLUcode values the modelled calls can produce).
`noScheme` .. `noZoneid` are the CURLUE_NO_* "component absent" codes;
`malformedInput` and `badPortNumber` are genuine failures. -/
inductive CURLUcode where
  | noScheme | noUser | noPassword | noOptions | noHost | noPort
  | noQuery | noFragment | noZoneid
  | malformedInput | badPortNumber
deriving DecidableEq, Repr

/-- An Engine URL handle (CURLU): one optional string per component.
Created empty; never shared between inputs (spec §3 Lifecycle). -/
structure Handle where
  scheme   : Option String := none
  user     : Option String := none
  password : Option String := none
  options  : Option String := none
  host     : Option String := none
  port     : Option String := none
  path     : Option String := none
  query    : Option String := none
  fragment : Option String := none
  zoneid   : Option String := none
deriving DecidableEq, Repr

/-- trurl.c lines 54-67: the component registry, in source order, including
"url" at index 0.  The C table's NULL sentinel is represented by the end of
the list. -/
def varsTable : List (String × CURLUPart) :=
  [("url",      .URL),
   ("scheme",   .SCHEME),
   ("user",     .USER),
   ("password", .PASSWORD),
   ("options",  .OPTIONS),
   ("host",     .HOST),
   ("port",     .PORT),
   ("path",     .PATH),
   ("query",    .QUERY),
   ("fragment", .FRAGMENT),
   ("zoneid",   .ZONEID)]

/-- NUM_COMPONENTS (trurl.c line 45). -/
def NUM_COMPONENTS : Nat := 11

/-- Exit code of errorf for a --set problem (trurl.c line 76). -/
def ERROR_SET : Nat := 5

/-- Exit code of errorf when no URL can be synthesized (trurl.c line 78). -/
def ERROR_URL : Nat := 7

/-- ASCII tolower, as used (via strncasecmp) by trurl.c's name matching. -/
def asciiLower (c : Char) : Char :=
  if 'A' ≤ c ∧ c ≤ 'Z' then Char.ofNat (c.toNat + 32) else c

/-- strncasecmp over exactly the paired characters: equal length and
case-insensitively equal character by character. -/
def casecmpEq : List Char → List Char → Bool
  | [], [] => true
  | a :: as, b :: bs => asciiLower a == asciiLower b && casecmpEq as bs
  | _, _ => false

/-- The name match of trurl.c lines 317-319 and 394-396:
strlen(name) == vlen && !strncasecmp(candidate, name, vlen). -/
def matchName (cs ns : List Char) : Bool :=
  cs.length == ns.length && casecmpEq cs ns

/-- The registry scan (for-loop over `varsTable` with an index), returning
the index of the first matching entry, as in trurl.c's set() and format(). -/
def lookupVarAux (cs : List Char) (i : Nat) :
    List (String × CURLUPart) → Option Nat
  | [] => none
  | v :: rest => if matchName cs v.1.data then some i else lookupVarAux cs (i + 1) rest

/-- Component-name lookup over the registry. -/
def lookupVar (cs : List Char) : Option Nat := lookupVarAux cs 0 varsTable

/-- Name of registry entry `i`. -/
def varName (i : Nat) : String := ((varsTable.getD i ("", .URL))).1

/-- CURLUPart of registry entry `i`. -/
def partAt (i : Nat) : CURLUPart := ((varsTable.getD i ("", .URL))).2

/-- strchr: index of the first occurrence of `c`, if any. -/
def strchrIdx (c : Char) : List Char → Option Nat
  | [] => none
  | a :: rest => if a = c then some 0 else (strchrIdx c rest).map (· + 1)

/-- Split at the first occurrence of `c`: characters before it, and
(when present) the characters after it. -/
def splitAtFirst (c : Char) : List Char → List Char × Option (List Char)
  | [] => ([], none)
  | a :: rest =>
    if a = c then ([], some rest)
    else
      let p := splitAtFirst c rest
      (a :: p.1, p.2)

/-- Engine model: locate a "://" separator, returning the characters before
it (the scheme) and after it. -/
def splitSchemeAux : List Char → Option (List Char × List Char)
  | [] => none
  | ':' :: '/' :: '/' :: rest => some ([], rest)
  | c :: rest => (splitSchemeAux rest).map (fun p => (c :: p.1, p.2))

/-- Numeric value of an all-digit character list (none otherwise). -/
def digitsVal (cs : List Char) : Option Nat :=
  if cs.all (·.isDigit) then
    some (cs.foldl (fun a c => a * 10 + (c.toNat - 48)) 0)
  else none

/-- Engine model: parse an (absolute) URL string into a fresh handle, per
the spec §1 Engine contract.  An empty string or a missing host is
malformed; with no "://" the scheme is guessed (CURLU_GUESS_SCHEME),
modelled as "http".  Relative-reference resolution is not modelled (no
claim exercises it). -/
def mkFromHostRest (sch : String) (rest : List Char) : Except CURLUcode Handle :=
  let host := rest.takeWhile (fun c => !(c = '/' || c = '?' || c = '#'))
  let after := rest.dropWhile (fun c => !(c = '/' || c = '?' || c = '#'))
  if host = [] then .error .malformedInput
  else
    let ph := splitAtFirst '#' after
    let pq := splitAtFirst '?' ph.1
    .ok { scheme := some sch, host := some (String.mk host),
          path := if pq.1 = [] then none else some (String.mk pq.1),
          query := pq.2.map String.mk, fragment := ph.2.map String.mk }

/-- Engine model: curl_url_set(uh, CURLUPART_URL, v, guess-scheme flags). -/
def parseURLStr (v : List Char) : Except CURLUcode Handle :=
  match v with
  | [] => .error .malformedInput
  | _ =>
    match splitSchemeAux v with
    | some (sch, rest) =>
      if sch = [] then .error .malformedInput
      else mkFromHostRest (String.mk sch) rest
    | none => mkFromHostRest "http" v

/-- Engine model: curl_url_set.  The CURLU_URLENCODE / CURLU_NON_SUPPORT_SCHEME
flags only affect engine-internal encoding and scheme validation, out of
scope per spec §1, so they are not parameters here.  Setting PORT validates
a decimal number (CURLUE_BAD_PORT_NUMBER otherwise); setting URL parses the
value as a whole URL replacing the handle's state. -/
def curl_url_set (uh : Handle) (part : CURLUPart) (v : String) :
    Except CURLUcode Handle :=
  match part with
  | .URL => parseURLStr v.data
  | .SCHEME => .ok {uh with scheme := some v}
  | .USER => .ok {uh with user := some v}
  | .PASSWORD => .ok {uh with password := some v}
  | .OPTIONS => .ok {uh with options := some v}
  | .HOST => .ok {uh with host := some v}
  | .PORT =>
    match digitsVal v.data with
    | some n => if n ≤ 65535 ∧ v.data ≠ [] then .ok {uh with port := some v}
                else .error .badPortNumber
    | none => .error .badPortNumber
  | .PATH => .ok {uh with path := some v}
  | .QUERY => .ok {uh with query := some v}
  | .FRAGMENT => .ok {uh with fragment := some v}
  | .ZONEID => .ok {uh with zoneid := some v}

/-- Default port for known schemes (CURLU_DEFAULT_PORT). -/
def defaultPortOf : Option String → Option String
  | some "http" => some "80"
  | some "https" => some "443"
  | some "ftp" => some "21"
  | _ => none

/-- An absent component, as an Engine get error. -/
def orAbsent (o : Option String) (e : CURLUcode) : Except CURLUcode String :=
  match o with
  | some s => .ok s
  | none => .error e

/-- Engine model: serialize the whole URL (curl_url_get CURLUPART_URL).
Fails when the scheme or host is missing ("insufficient components to form
a valid URL", spec §4.3). -/
def serializeURL (uh : Handle) : Except CURLUcode String :=
  match uh.scheme with
  | none => .error .noScheme
  | some sc =>
    match uh.host with
    | none => .error .noHost
    | some ho =>
      let userinfo :=
        match uh.user, uh.password with
        | none, _ => ""
        | some u, none => u ++ "@"
        | some u, some pw => u ++ ":" ++ pw ++ "@"
      let portstr := match uh.port with | some p => ":" ++ p | none => ""
      let qstr := match uh.query with | some q => "?" ++ q | none => ""
      let fstr := match uh.fragment with | some f => "#" ++ f | none => ""
      .ok (sc ++ "://" ++ userinfo ++ ho ++ portstr ++ (uh.path.getD "/") ++ qstr ++ fstr)

/-- Engine model: curl_url_get.  `defPort` is CURLU_DEFAULT_PORT; `urldec`
is CURLU_URLDECODE (percent-decoding is out of scope per spec §1 and leaves
the modelled value unchanged, so the flag is accepted and ignored).  A PATH
get always succeeds, yielding "/" when the path is unset (libcurl
behaviour the source relies on in its path-append loop). -/
def curl_url_get (uh : Handle) (part : CURLUPart) (defPort _urldec : Bool) :
    Except CURLUcode String :=
  match part with
  | .URL => serializeURL uh
  | .SCHEME => orAbsent uh.scheme .noScheme
  | .USER => orAbsent uh.user .noUser
  | .PASSWORD => orAbsent uh.password .noPassword
  | .OPTIONS => orAbsent uh.options .noOptions
  | .HOST => orAbsent uh.host .noHost
  | .PORT =>
    match uh.port with
    | some p => .ok p
    | none =>
      if defPort then
        match defaultPortOf uh.scheme with
        | some p => .ok p
        | none => .error .noPort
      else .error .noPort
  | .PATH => .ok (uh.path.getD "/")
  | .QUERY => orAbsent uh.query .noQuery
  | .FRAGMENT => orAbsent uh.fragment .noFragment
  | .ZONEID => orAbsent uh.zoneid .noZoneid

/-- curl_url_strerror, abbreviated to what format() prints. -/
def strerrorModel : CURLUcode → String
  | .noScheme => "no scheme part in the URL"
  | .noUser => "no user part in the URL"
  | .noPassword => "no password part in the URL"
  | .noOptions => "no options part in the URL"
  | .noHost => "no host part in the URL"
  | .noPort => "no port part in the URL"
  | .noQuery => "no query part in the URL"
  | .noFragment => "no fragment part in the URL"
  | .noZoneid => "no zoneid part in the URL"
  | .malformedInput => "malformed input to a URL function"
  | .badPortNumber => "port number was not a decimal number between 0 and 65535"

/-- The source calls curl_url_set and discards its return code at several
places (base URL, redirect, per-component set, path/query set-back); a
failed Engine set leaves the handle unchanged. -/
def setIgnore (uh : Handle) (part : CURLUPart) (v : String) : Handle :=
  match curl_url_set uh part v with
  | .ok uh2 => uh2
  | .error _ => uh

/-- The accumulated option model (struct option, trurl.c lines 126-137),
without the FILE handle bookkeeping: literal URL list, percent-encoded
path/query append segments (encoded at option-build time by pathadd /
queryadd, before this core runs, per spec §3 AppendOp), raw --set strings,
optional redirect and format, and the decode-on-output flag. -/
structure Opts where
  url_list : List String := []
  append_path : List String := []
  append_query : List String := []
  set_list : List String := []
  redirect : Option String := none
  format : Option String := none
  urldecode : Bool := false

/-- Outcome of parsing one --set string, mirroring trurl.c lines 383-396:
find the first '=', require at least one character before it, treat a ':'
immediately before the '=' as the do-not-encode marker, and look the
component name up in the registry. -/
inductive SetParse where
  | invalid
  | unknown
  | okp (i : Nat) (urlencode : Bool) (value : String)
deriving DecidableEq, Repr

/-- Parse one node of the set_list ([component]=[data] or
[component]:=[data]), as in trurl.c's set(): a ':' immediately before the
'=' clears the urlencode flag and shortens the name by one. -/
def parseSetStr (s : String) : SetParse :=
  match strchrIdx '=' s.data with
  | none => .invalid
  | some k =>
    if k = 0 then .invalid
    else if s.data.getD (k - 1) ' ' = ':' then
      match lookupVar (s.data.take (k - 1)) with
      | some i => .okp i false (String.mk (s.data.drop (k + 1)))
      | none => .unknown
    else
      match lookupVar (s.data.take k) with
      | some i => .okp i true (String.mk (s.data.drop (k + 1)))
      | none => .unknown

/-- The Set Phase loop of trurl.c set() (lines 376-414): a varset flag per
registry entry enforces set-once; a duplicate or unknown component or
malformed syntax aborts via errorf (modelled as the error case, carrying
errorf's exit code and message); the Engine set's return code is discarded. -/
def setLoop (uh : Handle) (varset : List Bool) :
    List String → Except (Nat × String) Handle
  | [] => .ok uh
  | s :: rest =>
    match parseSetStr s with
    | .invalid => .error (ERROR_SET, "invalid --set syntax: " ++ s)
    | .unknown => .error (ERROR_SET, "Set unknown component: " ++ s)
    | .okp i _ v =>
      if varset.getD i false then
        .error (ERROR_SET,
          "A component can only be set once per URL (" ++ varName i ++ ")")
      else
        setLoop (setIgnore uh (partAt i) v) (varset.set i true) rest

/-- trurl.c set(): run the Set Phase over o.set_list with a fresh varset. -/
def set (uh : Handle) (o : Opts) : Except (Nat × String) Handle :=
  setLoop uh (List.replicate NUM_COMPONENTS false) o.set_list

/-- One iteration of the path-append loop in singleurl (trurl.c lines
434-456): get the current path (always succeeds; "/" when unset), insert a
"/" separator unless the current path already ends with one, and set the
result back with no further encoding, ignoring the Engine result. -/
def appendPathOne (uh : Handle) (apath : String) : Handle :=
  let opath :=
    match curl_url_get uh .PATH false false with
    | .ok p => p
    | .error _ => ""
  let npath := opath ++ (if opath.data.getLast? = some '/' then "" else "/") ++ apath
  setIgnore uh .PATH npath

/-- One iteration of the query-append loop in singleurl (trurl.c lines
459-474): get the current query — the return code is ignored; when the
query is absent libcurl leaves the output pointer NULL, which
curl_maprintf would render as "(nil)"; the model charitably reads the
absent query as "" — then unconditionally build oq ++ "&" ++ aq and set it
back, ignoring the Engine result. -/
def appendQueryOne (uh : Handle) (aq : String) : Handle :=
  let oq :=
    match curl_url_get uh .QUERY false false with
    | .ok q => q
    | .error _ => ""
  let nq := oq ++ "&" ++ aq
  setIgnore uh .QUERY nq

/-- Steps 1-5 of the executor in singleurl (trurl.c lines 420-474): fresh
handle; if a base URL is given, set it (result ignored) and — only inside
that branch — set the redirect if present (result ignored); then the Set
Phase; then path appends, then query appends, in input order. -/
def buildHandle (o : Opts) (url : Option String) : Except (Nat × String) Handle :=
  let uh0 : Handle := {}
  let uh1 :=
    match url with
    | some u =>
      let h1 := setIgnore uh0 .URL u
      match o.redirect with
      | some r => setIgnore h1 .URL r
      | none => h1
    | none => uh0
  match set uh1 o with
  | .error e => .error e
  | .ok uh2 =>
    let uh3 := o.append_path.foldl appendPathOne uh2
    .ok (o.append_query.foldl appendQueryOne uh3)

/-- Per-substitution output of format() (trurl.c lines 316-345): scan the
whole registry (the loop has no break); on a match, curl_url_get with
CURLU_DEFAULT_PORT (plus CURLU_URLDECODE when decoding): success emits the
value on stdout, the nine CURLUE_NO_* codes are silently ignored, anything
else emits a diagnostic line on stderr. -/
def emitVar (uh : Handle) (dec : Bool) (name : List Char) :
    List Char × List String :=
  varsTable.foldl
    (fun acc v =>
      if matchName name v.1.data then
        match curl_url_get uh v.2 true dec with
        | .ok s => (acc.1 ++ s.data, acc.2)
        | .error rc =>
          match rc with
          | .noScheme | .noUser | .noPassword | .noOptions | .noHost
          | .noPort | .noQuery | .noFragment | .noZoneid => acc
          | _ =>
            (acc.1, acc.2 ++ ["trurl: " ++ strerrorModel rc ++ " (" ++ v.1 ++ ")"])
      else acc)
    ([], [])

/-- The format() template loop (trurl.c lines 296-372), fuel-indexed for
structural recursion; the fuel only ever needs to cover the number of
remaining characters, since every step consumes at least one.  Returns the
stdout characters and the stderr diagnostic lines.  A doubled brace emits a
literal brace; a brace followed by a name and a closing brace substitutes
the component; a brace with no closing brace in the remainder is passed
over (ptr++; continue) and scanning resumes with the next character;
backslash escapes r, n, t; an unrecognized escape emits both characters. -/
def renderLoopF (uh : Handle) (dec : Bool) : Nat → List Char → List Char × List String
  | _, [] => ([], [])
  | 0, _ :: _ => ([], [])
  | n + 1, c :: rest =>
    if c = '{' then
      if rest.head? = some '{' then
        let p := renderLoopF uh dec n rest.tail
        ('{' :: p.1, p.2)
      else
        match strchrIdx '}' rest with
        | none => renderLoopF uh dec n rest
        | some k =>
          let sub := emitVar uh dec (rest.take k)
          let p := renderLoopF uh dec n (rest.drop (k + 1))
          (sub.1 ++ p.1, sub.2 ++ p.2)
    else if c = '\\' ∧ rest ≠ [] then
      let e := rest.headD ' '
      let out :=
        if e = 'r' then ['\r']
        else if e = 'n' then ['\n']
        else if e = 't' then ['\t']
        else [c, e]
      let p := renderLoopF uh dec n rest.tail
      (out ++ p.1, p.2)
    else
      let p := renderLoopF uh dec n rest
      (c :: p.1, p.2)

/-- Run the template loop on a character list with adequate fuel. -/
def renderRun (uh : Handle) (dec : Bool) (cs : List Char) : List Char × List String :=
  renderLoopF uh dec cs.length cs

/-- trurl.c format(op, uh): render the template and append the mandatory
trailing newline; stderr lines are returned alongside. -/
def format (o : Opts) (uh : Handle) : String × List String :=
  let p := renderRun uh o.urldecode (o.format.getD "").data
  (String.mk (p.1 ++ ['\n']), p.2)

/-- trurl.c singleurl (lines 416-493): build the handle, then either render
the custom format or synthesize the whole URL; a failed synthesis calls
errorf(ERROR_URL, "not enough input for a URL"), which exits the process
(modelled as the error case).  On success, the stdout line (with its
newline) is returned. -/
def singleurl (o : Opts) (url : Option String) : Except (Nat × String) String :=
  match buildHandle o url with
  | .error e => .error e
  | .ok uh =>
    match o.format with
    | some _ => .ok (format o uh).1
    | none =>
      match curl_url_get uh .URL false o.urldecode with
      | .ok nurl => .ok (nurl ++ "\n")
      | .error _ => .error (ERROR_URL, "not enough input for a URL")

/-- The command-line batch loop in main (trurl.c lines 547-558): one
singleurl call per URL in order; errorf anywhere exits the process,
modelled by the error short-circuiting the rest of the batch. -/
def runUrls (o : Opts) : List String → Except (Nat × String) (List String)
  | [] => .ok []
  | u :: rest =>
    match singleurl o (some u) with
    | .error e => .error e
    | .ok out =>
      match runUrls o rest with
      | .error e => .error e
      | .ok outs => .ok (out :: outs)

/-- main's do-while over the URL list: with an empty list, singleurl runs
once with no URL (trurl.c lines 548-557). -/
def runBatch (o : Opts) : Except (Nat × String) (List String) :=
  match o.url_list with
  | [] =>
    match singleurl o none with
    | .error e => .error e
    | .ok out => .ok [out]
  | us => runUrls o us

/-- fgets(buffer, cap+1, f) on a character stream: consume characters up to
the capacity, stopping after a newline; returns the chunk read and the
remaining stream. -/
def fgets1 : Nat → List Char → List Char × List Char
  | 0, cs => ([], cs)
  | _ + 1, [] => ([], [])
  | n + 1, c :: rest =>
    if c = '\n' then ([c], rest)
    else
      let p := fgets1 n rest
      (c :: p.1, p.2)

/-- The fgets loop of main's file mode (trurl.c lines 529-530) with its
4096-byte buffer (so at most 4095 characters per chunk), fuel-indexed; each
chunk of a nonempty stream is nonempty, so stream length is adequate fuel. -/
def fgetsChunksF : Nat → List Char → List (List Char)
  | 0, _ => []
  | _ + 1, [] => []
  | n + 1, c :: rest =>
    let p := fgets1 4095 (c :: rest)
    p.1 :: fgetsChunksF n p.2

/-- Split a stream into the chunks successive fgets calls return. -/
def fgetsChunks (cs : List Char) : List (List Char) := fgetsChunksF cs.length cs

/-- The per-chunk gate of main's file mode (trurl.c lines 531-541): find
the first newline; only when it exists and is not the first character is
the chunk executed, with a '\r' immediately before the newline stripped;
otherwise the chunk is skipped. -/
def processLine (buffer : List Char) : Option (List Char) :=
  match strchrIdx '\n' buffer with
  | some i =>
    if 0 < i then
      some (buffer.take (if buffer.getD (i - 1) ' ' = '\r' then i - 1 else i))
    else none
  | none => none

/-- The URLs main's file mode hands to singleurl, in stream order. -/
def urlsFromStream (cs : List Char) : List (List Char) :=
  (fgetsChunks cs).filterMap processLine

/-- main's file mode end to end: execute each surviving line. -/
def runFile (o : Opts) (content : List Char) : Except (Nat × String) (List String) :=
  runUrls o ((urlsFromStream content).map String.mk)

/-- The path-append rule exactly as the spec words it (§4.1 Append Phase /
§8): read the current path, absent treated as the empty string, and
concatenate with exactly one "/" separator unless the current path already
ends with "/".  Used only to compare against the source's appendPathOne. -/
def specAppendPath (cur : Option String) (s : String) : String :=
  let p := cur.getD ""
  p ++ (if p.data.getLast? = some '/' then "" else "/") ++ s

/-! Helper lemmas. -/

theorem casecmpEq_iff : ∀ as bs : List Char,
    casecmpEq as bs = true ↔ as.map asciiLower = bs.map asciiLower := by
  intro as
  induction as with
  | nil => intro bs; cases bs <;> simp [casecmpEq]
  | cons a as ih =>
    intro bs
    cases bs with
    | nil => simp [casecmpEq]
    | cons b bs => simp [casecmpEq, ih]

theorem matchName_iff (cs ns : List Char) :
    matchName cs ns = true ↔ cs.map asciiLower = ns.map asciiLower := by
  unfold matchName
  rw [Bool.and_eq_true, beq_iff_eq, casecmpEq_iff]
  constructor
  · exact fun h => h.2
  · intro h
    refine ⟨?_, h⟩
    have := congrArg List.length h
    simpa using this

theorem strchrIdx_none (c : Char) (l : List Char) (h : c ∉ l) :
    strchrIdx c l = none := by
  induction l with
  | nil => rfl
  | cons a rest ih =>
    simp only [List.mem_cons, not_or] at h
    simp [strchrIdx, Ne.symm h.1, ih h.2]

theorem strchrIdx_append_cons (c : Char) (xs ys : List Char) (h : c ∉ xs) :
    strchrIdx c (xs ++ c :: ys) = some xs.length := by
  induction xs with
  | nil => simp [strchrIdx]
  | cons a rest ih =>
    simp only [List.mem_cons, not_or] at h
    simp [strchrIdx, Ne.symm h.1, ih h.2]

theorem getD_append_left (xs ys : List Char) (i : Nat) (d : Char)
    (h : i < xs.length) : (xs ++ ys).getD i d = xs.getD i d := by
  induction xs generalizing i with
  | nil => simp at h
  | cons a rest ih =>
    cases i with
    | zero => rfl
    | succ j =>
      simp only [List.length_cons, Nat.succ_lt_succ_iff] at h
      simpa [List.getD] using ih j h

theorem getD_last_of_ne_nil (l : List Char) (d : Char) (h : l ≠ []) :
    some (l.getD (l.length - 1) d) = l.getLast? := by
  induction l with
  | nil => exact absurd rfl h
  | cons a rest ih =>
    cases rest with
    | nil => rfl
    | cons b t =>
      have := ih (by simp)
      simpa [List.getD, List.getLast?] using this

theorem getD_replicate_false (n i : Nat) :
    (List.replicate n false).getD i false = false := by
  induction n generalizing i with
  | zero => rfl
  | succ m ih =>
    cases i with
    | zero => rfl
    | succ j =>
      have := ih j
      simpa [List.replicate, List.getD] using this

theorem getD_set_true (l : List Bool) (i : Nat) (h : i < l.length) :
    (l.set i true).getD i false = true := by
  induction l generalizing i with
  | nil => simp at h
  | cons a rest ih =>
    cases i with
    | zero => rfl
    | succ j =>
      simp only [List.length_cons, Nat.succ_lt_succ_iff] at h
      simpa [List.set, List.getD] using ih j h

theorem lookupVarAux_lt (cs : List Char) :
    ∀ (l : List (String × CURLUPart)) (j i : Nat),
      lookupVarAux cs j l = some i → i < j + l.length := by
  intro l
  induction l with
  | nil => intro j i h; simp [lookupVarAux] at h
  | cons v rest ih =>
    intro j i h
    simp only [lookupVarAux] at h
    by_cases hm : matchName cs v.1.data = true
    · simp only [hm, if_true, Option.some.injEq] at h
      simp only [List.length_cons]
      omega
    · simp only [hm, if_false] at h
      have := ih (j + 1) i h
      simp only [List.length_cons]
      omega

theorem lookupVar_lt (cs : List Char) (i : Nat) (h : lookupVar cs = some i) :
    i < NUM_COMPONENTS := by
  have := lookupVarAux_lt cs varsTable 0 i (by simpa [lookupVar] using h)
  simp only [varsTable, List.length_cons, List.length_nil] at this
  simp only [NUM_COMPONENTS]
  omega

theorem parseSetStr_lt (s : String) (i : Nat) (e : Bool) (v : String)
    (h : parseSetStr s = .okp i e v) : i < NUM_COMPONENTS := by
  unfold parseSetStr at h
  rcases hk : strchrIdx '=' s.data with _ | k <;> rw [hk] at h <;> dsimp only at h
  · simp at h
  · by_cases h0 : k = 0
    · rw [if_pos h0] at h
      simp at h
    · rw [if_neg h0] at h
      by_cases hc : s.data.getD (k - 1) ' ' = ':'
      · rw [if_pos hc] at h
        rcases hl : lookupVar (s.data.take (k - 1)) with _ | j <;> rw [hl] at h
        · simp at h
        · simp only [SetParse.okp.injEq] at h
          obtain ⟨hi, -, -⟩ := h
          exact hi ▸ lookupVar_lt _ j hl
      · rw [if_neg hc] at h
        rcases hl : lookupVar (s.data.take k) with _ | j <;> rw [hl] at h
        · simp at h
        · simp only [SetParse.okp.injEq] at h
          obtain ⟨hi, -, -⟩ := h
          exact hi ▸ lookupVar_lt _ j hl

theorem lookupVarAux_isSome (cs : List Char) :
    ∀ (l : List (String × CURLUPart)) (j : Nat),
      (lookupVarAux cs j l).isSome ↔ ∃ v ∈ l, matchName cs v.1.data = true := by
  intro l
  induction l with
  | nil => intro j; simp [lookupVarAux]
  | cons v rest ih =>
    intro j
    simp only [lookupVarAux]
    by_cases hm : matchName cs v.1.data = true
    · simp [hm]
    · simp [hm, ih (j + 1)]

/-! Claim theorems. -/

/-- Claim C7 (confirmed): a MutationSet whose set list contains two SetOps
resolving (case-insensitively) to the same registry component always makes
the Set Phase fail with errorf's fatal "set once per URL" error naming that
component, for all values and encode flags; the error aborts before the
second Engine set, so the second value is never applied. -/
theorem c7_set_once (uh : Handle) (s1 s2 : String) (i : Nat) (e1 e2 : Bool)
    (v1 v2 : String) (h1 : parseSetStr s1 = .okp i e1 v1)
    (h2 : parseSetStr s2 = .okp i e2 v2) :
    set uh {set_list := [s1, s2]} =
      .error (ERROR_SET,
        "A component can only be set once per URL (" ++ varName i ++ ")") := by
  have hlt : i < NUM_COMPONENTS := parseSetStr_lt s1 i e1 v1 h1
  have hr : (List.replicate NUM_COMPONENTS false).getD i false = false :=
    getD_replicate_false _ _
  have hs : ((List.replicate NUM_COMPONENTS false).set i true).getD i false = true :=
    getD_set_true _ i (by simpa using hlt)
  have hs2 : (((List.replicate NUM_COMPONENTS false).set i true)[i]?).getD false = true := by
    simpa [List.getD] using hs
  simp [set, setLoop, h1, h2, hr, hs2]

/-- Witness for C7: setting host twice ("host=a" then "HOST:=b") fails with
the duplicate-component error naming host. -/
theorem c7_set_once_witness :
    parseSetStr "host=a" = .okp 5 true "a" ∧
    parseSetStr "HOST:=b" = .okp 5 false "b" ∧
    set ({} : Handle) {set_list := ["host=a", "HOST:=b"]} =
      .error (ERROR_SET,
        "A component can only be set once per URL (" ++ varName 5 ++ ")") :=
  ⟨by decide, by decide,
    c7_set_once {} "host=a" "HOST:=b" 5 true false "a" "b" (by decide) (by decide)⟩

/-- Claim C8 (confirmed): every path-append step produces exactly the path
the spec's rule describes — current path (absent read as empty) plus one
"/" separator unless the current path already ends in "/", plus the
(pre-encoded) segment — and the worked examples hold: appending "a" to an
empty path gives "/a", then appending "b" gives "/a/b" with no double
slash. -/
theorem c8_append_path (uh : Handle) (s : String) :
    appendPathOne uh s = {uh with path := some (specAppendPath uh.path s)} ∧
    (appendPathOne ({} : Handle) "a").path = some "/a" ∧
    (appendPathOne (appendPathOne ({} : Handle) "a") "b").path = some "/a/b" := by
  refine ⟨?_, by decide, by decide⟩
  rcases uh with ⟨sc, us, pw, op, ho, po, pa, qu, fr, zo⟩
  cases pa <;> rfl

theorem fgets1_subset : ∀ (n : Nat) (cs : List Char),
    (∀ x ∈ (fgets1 n cs).1, x ∈ cs) ∧ (∀ x ∈ (fgets1 n cs).2, x ∈ cs) := by
  intro n
  induction n with
  | zero => intro cs; simp [fgets1]
  | succ m ih =>
    intro cs
    cases cs with
    | nil => simp [fgets1]
    | cons c rest =>
      by_cases h : c = '\n'
      · simp only [fgets1, if_pos h]
        exact ⟨by intro x hx; simp only [List.mem_singleton] at hx; simp [hx, h],
          fun x hx => List.mem_cons_of_mem c hx⟩
      · have hr := ih rest
        constructor
        · intro x hx
          simp only [fgets1, if_neg h, List.mem_cons] at hx ⊢
          rcases hx with hx | hx
          · exact Or.inl hx
          · exact Or.inr (hr.1 x hx)
        · intro x hx
          simp only [fgets1, if_neg h] at hx
          exact List.mem_cons_of_mem c (hr.2 x hx)

theorem fgetsChunksF_subset : ∀ (n : Nat) (cs chunk : List Char),
    chunk ∈ fgetsChunksF n cs → ∀ x ∈ chunk, x ∈ cs := by
  intro n
  induction n with
  | zero => intro cs chunk h; simp [fgetsChunksF] at h
  | succ m ih =>
    intro cs chunk h
    cases cs with
    | nil => simp [fgetsChunksF] at h
    | cons c rest =>
      simp only [fgetsChunksF, List.mem_cons] at h
      rcases h with h | h
      · intro x hx
        exact (fgets1_subset 4095 (c :: rest)).1 x (h ▸ hx)
      · intro x hx
        exact (fgets1_subset 4095 (c :: rest)).2 x (ih _ chunk h x hx)

theorem filterMap_none {α β : Type} (f : α → Option β) :
    ∀ l : List α, (∀ a ∈ l, f a = none) → l.filterMap f = [] := by
  intro l
  induction l with
  | nil => intro _; rfl
  | cons a rest ih =>
    intro h
    have ha := h a (List.mem_cons_self a rest)
    simp [List.filterMap_cons, ha, ih fun b hb => h b (List.mem_cons_of_mem a hb)]

/-- Claim C10 (confirmed): in file/stdin mode, a buffered chunk with no
newline is skipped (never handed to singleurl), and every chunk that is
executed has its first newline at an index of at least 1, i.e. it is
newline-terminated with at least one character before the terminator;
consequently a stream with no newline at all — in particular a final line
lacking its terminator — contributes no URLs. -/
theorem c10_stream_lines (content chunk : List Char)
    (hmem : chunk ∈ fgetsChunks content) :
    (('\n' ∉ chunk → processLine chunk = none) ∧
      ∀ u, processLine chunk = some u →
        ∃ i, strchrIdx '\n' chunk = some i ∧ 1 ≤ i) ∧
    ('\n' ∉ content → urlsFromStream content = []) := by
  refine ⟨⟨?_, ?_⟩, ?_⟩
  · intro hnl
    simp [processLine, strchrIdx_none '\n' chunk hnl]
  · intro u hu
    unfold processLine at hu
    rcases hi : strchrIdx '\n' chunk with _ | i <;> rw [hi] at hu <;>
      dsimp only at hu
    · simp at hu
    · by_cases h0 : 0 < i
      · exact ⟨i, rfl, h0⟩
      · rw [if_neg h0] at hu
        simp at hu
  · intro hnl
    refine filterMap_none processLine (fgetsChunks content) ?_
    intro ch hch
    have hsub := fgetsChunksF_subset content.length content ch hch
    have : '\n' ∉ ch := fun hx => hnl (hsub '\n' hx)
    simp [processLine, strchrIdx_none '\n' ch this]

/-- Witness for C10: in the stream "ab\ncd", the chunk "ab\n" is executed
(first newline at index 2) and the trailing "cd" chunk is skipped; a
newline-free stream yields no URLs. -/
theorem c10_stream_lines_witness :
    (['a', 'b', '\n'] ∈ fgetsChunks "ab\ncd".data) ∧
    ((('\n' ∉ ['a', 'b', '\n'] → processLine ['a', 'b', '\n'] = none) ∧
      ∀ u, processLine ['a', 'b', '\n'] = some u →
        ∃ i, strchrIdx '\n' ['a', 'b', '\n'] = some i ∧ 1 ≤ i) ∧
     ('\n' ∉ "ab\ncd".data → urlsFromStream "ab\ncd".data = [])) :=
  ⟨by decide, c10_stream_lines "ab\ncd".data ['a', 'b', '\n'] (by decide)⟩

/-- Claim C9 (confirmed): registry lookup — shared by --set keys and by
format-template tokens, both of which call the same registry scan —
succeeds exactly when the candidate, lowercased ASCII-wise, is one of the
eleven registry names (so any case variant matches, and any string that
differs in a character or is a strict prefix or extension fails); and for
--set, a well-formed assignment whose component name fails lookup is the
fatal "Set unknown component" errorf. -/
theorem c9_lookup (s : String) :
    ((lookupVar s.data).isSome ↔
      s.data.map asciiLower ∈
        ["url".data, "scheme".data, "user".data, "password".data,
         "options".data, "host".data, "port".data, "path".data,
         "query".data, "fragment".data, "zoneid".data]) ∧
    (∀ (uh : Handle) (v : String), s.data ≠ [] → '=' ∉ s.data →
      s.data.getLast? ≠ some ':' → lookupVar s.data = none →
      set uh {set_list := [s ++ "=" ++ v]} =
        .error (ERROR_SET, "Set unknown component: " ++ (s ++ "=" ++ v))) := by
  constructor
  · rw [show lookupVar s.data = lookupVarAux s.data 0 varsTable from rfl,
      lookupVarAux_isSome]
    simp only [varsTable, List.mem_cons, List.not_mem_nil, or_false,
      List.mem_singleton]
    constructor
    · rintro ⟨vv, hv, hm⟩
      rw [matchName_iff] at hm
      rcases hv with h | h | h | h | h | h | h | h | h | h | h <;>
        subst h <;> rw [hm] <;> simp <;> decide
    · intro hm
      rcases hm with h | h | h | h | h | h | h | h | h | h | h
      · exact ⟨("url", .URL), by simp, by rw [matchName_iff, h]; decide⟩
      · exact ⟨("scheme", .SCHEME), by simp, by rw [matchName_iff, h]; decide⟩
      · exact ⟨("user", .USER), by simp, by rw [matchName_iff, h]; decide⟩
      · exact ⟨("password", .PASSWORD), by simp, by rw [matchName_iff, h]; decide⟩
      · exact ⟨("options", .OPTIONS), by simp, by rw [matchName_iff, h]; decide⟩
      · exact ⟨("host", .HOST), by simp, by rw [matchName_iff, h]; decide⟩
      · exact ⟨("port", .PORT), by simp, by rw [matchName_iff, h]; decide⟩
      · exact ⟨("path", .PATH), by simp, by rw [matchName_iff, h]; decide⟩
      · exact ⟨("query", .QUERY), by simp, by rw [matchName_iff, h]; decide⟩
      · exact ⟨("fragment", .FRAGMENT), by simp, by rw [matchName_iff, h]; decide⟩
      · exact ⟨("zoneid", .ZONEID), by simp, by rw [matchName_iff, h]; decide⟩
  · intro uh v hne hnoeq hnc hlk
    have hdata : (s ++ "=" ++ v).data = s.data ++ '=' :: v.data := by
      simp [String.data_append]
    have hk : strchrIdx '=' ((s ++ "=" ++ v).data) = some s.data.length := by
      rw [hdata]; exact strchrIdx_append_cons '=' s.data v.data hnoeq
    have hlen : 0 < s.data.length := List.length_pos.mpr hne
    have hgd : (s.data ++ '=' :: v.data).getD (s.data.length - 1) ' ' ≠ ':' := by
      rw [getD_append_left s.data _ _ _ (by omega)]
      intro hcol
      apply hnc
      rw [← getD_last_of_ne_nil s.data ' ' hne, hcol]
    have htake : (s.data ++ '=' :: v.data).take s.data.length = s.data :=
      List.take_left s.data _
    have hparse : parseSetStr (s ++ "=" ++ v) = .unknown := by
      unfold parseSetStr
      rw [hk]
      dsimp only
      rw [hdata]
      rw [if_neg (show ¬ s.data.length = 0 by omega)]
      rw [if_neg hgd]
      rw [htake, hlk]
    simp [set, setLoop, hparse]

/-- Witness for C9: "ZONEID" (a case variant) matches; the strict prefix
"hos" fails lookup, and --set with it is the unknown-component error. -/
theorem c9_lookup_witness :
    ((lookupVar "ZONEID".data).isSome ↔
      "ZONEID".data.map asciiLower ∈
        ["url".data, "scheme".data, "user".data, "password".data,
         "options".data, "host".data, "port".data, "path".data,
         "query".data, "fragment".data, "zoneid".data]) ∧
    (("hos" : String).data ≠ [] ∧ '=' ∉ ("hos" : String).data ∧
      ("hos" : String).data.getLast? ≠ some ':' ∧
      lookupVar ("hos" : String).data = none) ∧
    set ({} : Handle) {set_list := ["hos" ++ "=" ++ "x"]} =
      .error (ERROR_SET, "Set unknown component: " ++ ("hos" ++ "=" ++ "x")) :=
  ⟨(c9_lookup "ZONEID").1, ⟨by decide, by decide, by decide, by decide⟩,
    (c9_lookup "hos").2 {} "x" (by decide) (by decide) (by decide) (by decide)⟩

/-- Claim C1 (corrected) — counterexample to the claim as stated: in the
batch ["", "example.com"], whole-URL synthesis fails for the first input,
and the run terminates through errorf with exit code ERROR_URL instead of
reporting and continuing: no output is produced for "example.com", even
though that input on its own renders fine. -/
theorem c1_cex :
    runBatch {url_list := ["", "example.com"]} =
      .error (ERROR_URL, "not enough input for a URL") ∧
    runBatch {url_list := ["example.com"]} = .ok ["http://example.com/\n"] := by
  decide

/-- Claim C1 (amended): when default whole-URL synthesis fails for an
input, errorf(ERROR_URL, "not enough input for a URL") exits the whole
process — the remaining inputs of the batch are not processed. -/
theorem c1_batch_aborts (o : Opts) (u : String) (rest : List String)
    (uh : Handle) (cc : CURLUcode) (hl : o.url_list = u :: rest)
    (hf : o.format = none) (hb : buildHandle o (some u) = .ok uh)
    (hg : curl_url_get uh .URL false o.urldecode = .error cc) :
    runBatch o = .error (ERROR_URL, "not enough input for a URL") := by
  have hs : singleurl o (some u) = .error (ERROR_URL, "not enough input for a URL") := by
    simp [singleurl, hb, hf, hg]
  unfold runBatch
  rw [hl]
  simp [runUrls, hs]

/-- Witness for the amended C1: the concrete batch of c1_cex, with the
hypotheses discharged by evaluation. -/
theorem c1_batch_aborts_witness :
    ((Opts.url_list {url_list := ["", "example.com"]} = "" :: ["example.com"]) ∧
      Opts.format {url_list := ["", "example.com"]} = none ∧
      buildHandle {url_list := ["", "example.com"]} (some "") = .ok ({} : Handle) ∧
      curl_url_get ({} : Handle) .URL false
        (Opts.urldecode {url_list := ["", "example.com"]}) = .error .noScheme) ∧
    runBatch {url_list := ["", "example.com"]} =
      .error (ERROR_URL, "not enough input for a URL") :=
  ⟨⟨by decide, by decide, by decide, by decide⟩,
    c1_batch_aborts {url_list := ["", "example.com"]} "" ["example.com"] {}
      .noScheme (by decide) (by decide) (by decide) (by decide)⟩

/-- Claim C2 (code bug): the query-append loop builds oq ++ "&" ++ aq
unconditionally (trurl.c line 467), so appending "k=v" to an absent or
empty query yields "&k=v" — not the "k=v" the spec's conditional-separator
rule prescribes (a later append to a nonempty query does agree with the
rule).  With the real Engine the absent-query case is even further off:
the failed get is ignored and leaves the output pointer NULL, which
curl_maprintf renders as "(nil)"; the model reads it charitably as "". -/
theorem c2_append_query_eval :
    (appendQueryOne ({} : Handle) "k=v").query = some "&k=v" ∧
    (appendQueryOne {query := some ""} "k=v").query = some "&k=v" ∧
    (appendQueryOne {query := some "k=v"} "k2=v2").query = some "k=v&k2=v2" ∧
    ("&k=v" : String) ≠ "k=v" := by
  decide

/-- Claim C3 (corrected) — counterexample to the claim as stated: with no
base URL the redirect is never applied (the curl_url_set for o->redirect
sits inside the if(url) branch, trurl.c lines 423-429): a MutationSet with
only a redirect errors out with "not enough input for a URL", while the
same MutationSet with a base URL resolves to the redirect target, showing
the redirect itself is fine. -/
theorem c3_cex :
    singleurl {redirect := some "http://example.com/x"} none =
      .error (ERROR_URL, "not enough input for a URL") ∧
    singleurl {redirect := some "http://example.com/x"}
        (some "http://other.example/") = .ok "http://example.com/x\n" := by
  decide

/-- Claim C3 (amended): the redirect is applied only when a base URL was
supplied; with no base URL, execution is identical to having no redirect
at all. -/
theorem c3_redirect_needs_base (o : Opts) (r : String) :
    singleurl {o with redirect := some r} none =
      singleurl {o with redirect := none} none := rfl

/-- Claim C4 (corrected) — counterexample to the claim as stated: the
template "a{bc" (a brace with no matching close) renders "abc" plus the
trailing newline — the characters after the unmatched brace are emitted,
not truncated (truncation would have produced "a" plus newline). -/
theorem c4_cex :
    format {format := some (String.mk ['a', '{', 'b', 'c'])} ({} : Handle) =
      ("abc\n", []) ∧
    ("abc\n" : String) ≠ "a\n" := by
  decide

/-- Claim C4 (amended): on a brace with no matching close anywhere in the
remainder, the brace alone is skipped (ptr++; continue) and rendering
continues with the remaining characters processed normally. -/
theorem c4_unmatched_brace_skipped (uh : Handle) (dec : Bool) (rest : List Char)
    (h1 : rest.head? ≠ some '{') (h2 : '}' ∉ rest) :
    renderRun uh dec ('{' :: rest) = renderRun uh dec rest := by
  have hn : strchrIdx '}' rest = none := strchrIdx_none _ _ h2
  simp [renderRun, renderLoopF, h1, hn]

/-- Witness for the amended C4: skipping the unmatched brace of "{bc". -/
theorem c4_unmatched_brace_skipped_witness :
    (("bc" : String).data.head? ≠ some '{' ∧ '}' ∉ ("bc" : String).data) ∧
    renderRun ({} : Handle) false ('{' :: ("bc" : String).data) =
      renderRun ({} : Handle) false ("bc" : String).data :=
  ⟨⟨by decide, by decide⟩,
    c4_unmatched_brace_skipped {} false ("bc" : String).data (by decide) (by decide)⟩

/-- Claim C5 (corrected) — counterexample to the claim as stated: the Set
Phase accepts "url" as a --set component (the registry scan starts at
index 0, which is the url entry, trurl.c lines 394-396): --set
url=http://example.com/x succeeds and applies the whole-URL set. -/
theorem c5_cex :
    set ({} : Handle) {set_list := ["url=http://example.com/x"]} =
      .ok {scheme := some "http", host := some "example.com",
           path := some "/x"} := by
  decide

/-- Claim C5 (amended): a SetOp with component key "url" is accepted by the
Set Phase like any other component: it resolves to registry entry 0 and
performs the whole-URL Engine set (result discarded as for every set). -/
theorem c5_url_is_settable (uh : Handle) (v : String) :
    set uh {set_list := ["url=" ++ v]} = .ok (setIgnore uh .URL v) := by
  have hd : ("url=" ++ v).data = 'u' :: 'r' :: 'l' :: '=' :: v.data := by
    simp [String.data_append]
  have hk : strchrIdx '=' (("url=" ++ v).data) = some 3 := by
    rw [hd]
    simp [strchrIdx]
  have hparse : parseSetStr ("url=" ++ v) = .okp 0 true v := by
    unfold parseSetStr
    rw [hk]
    dsimp only
    rw [hd]
    norm_num
    rfl
  simp [set, setLoop, hparse, getD_replicate_false, partAt, varsTable]

/-- Claim C6 (corrected) — counterexample to the claim as stated: --set
port=x makes the Engine set fail with CURLUE_BAD_PORT_NUMBER, yet the Set
Phase returns success with the handle unchanged: the Engine error is
discarded (trurl.c line 400 ignores the curl_url_set return code), not
surfaced as a fatal error. -/
theorem c6_cex :
    set ({} : Handle) {set_list := ["port=x"]} = .ok ({} : Handle) ∧
    curl_url_set ({} : Handle) (partAt 6) "x" = .error .badPortNumber := by
  decide

/-- Claim C6 (amended): an Engine error from a Set Phase operation is
ignored — the phase continues and reports success with the handle left
unchanged; no EngineFailed-style error exists in the program. -/
theorem c6_engine_error_ignored (uh : Handle) (s : String) (i : Nat) (e : Bool)
    (v : String) (cc : CURLUcode) (hp : parseSetStr s = .okp i e v)
    (hf : curl_url_set uh (partAt i) v = .error cc) :
    set uh {set_list := [s]} = .ok uh := by
  simp [set, setLoop, hp, getD_replicate_false, setIgnore, hf]

/-- Witness for the amended C6: the concrete --set port=x instance. -/
theorem c6_engine_error_ignored_witness :
    (parseSetStr "port=x" = .okp 6 true "x" ∧
      curl_url_set ({} : Handle) (partAt 6) "x" = .error .badPortNumber) ∧
    set ({} : Handle) {set_list := ["port=x"]} = .ok ({} : Handle) :=
  ⟨⟨by decide, by decide⟩,
    c6_engine_error_ignored {} "port=x" 6 true "x" .badPortNumber
      (by decide) (by decide)⟩

end Trurl
